import Mathlib

/-
  Verification of the log-archive Lambda of aws-daily-cloudwatch-logs-archiver
  (src/funcs/log-archive.lambda.ts) and its handler dispatch, via a shallow
  embedding: pure helpers become Lean functions, the durable controller becomes
  a function from scripted service responses to a trace of external actions and
  an outcome, and JS `Date` local-time semantics are modelled with an explicit
  fixed offset (minutes east of UTC) for the host time zone.
-/

namespace LogArchiver

/-! ## Name sanitizer

  Source: three chained String.replace calls on logGroupName; the first regex
  (global, slash) replaces every slash with a dash, the second (anchored,
  leading dash) removes one leading dash, the third (global, dot) replaces
  every dot with two dashes. -/

def replaceSlashesList : List Char → List Char
  | [] => []
  | c :: cs => (if c = '/' then '-' else c) :: replaceSlashesList cs

def stripLeadingDashList : List Char → List Char
  | '-' :: cs => cs
  | cs => cs

def replaceDotsList : List Char → List Char
  | [] => []
  | c :: cs => if c = '.' then '-' :: '-' :: replaceDotsList cs else c :: replaceDotsList cs

def safeLogGroupName (name : String) : String :=
  ⟨replaceDotsList (stripLeadingDashList (replaceSlashesList name.data))⟩

/-! Spec-side formulations of the three sanitizing stages, written from the
  spec wording ("replaces every `/` with `-`, strips one leading `-`, and
  replaces every `.` with `--`") for the refinement statement of C7. -/

def replaceSlashesSpec (cs : List Char) : List Char :=
  cs.map (fun c => if c = '/' then '-' else c)

def stripLeadingDashSpec (cs : List Char) : List Char :=
  if cs.head? = some '-' then cs.tail else cs

def replaceDotsSpec (cs : List Char) : List Char :=
  (cs.map (fun c => if c = '.' then ['-', '-'] else [c])).flatten

def sanitizeSpec (name : String) : String :=
  ⟨replaceDotsSpec (stripLeadingDashSpec (replaceSlashesSpec name.data))⟩

/-! ## Log group name from ARN

  Source: `const parts = arn.split(':'); return parts[6] ?? arn;`
  JS String.split with a single-character separator yields the fields between
  separator occurrences, empty fields preserved, and the empty string splits
  to one empty field. -/

def splitOnChar (sep : Char) : List Char → List (List Char)
  | [] => [[]]
  | c :: cs =>
    let r := splitOnChar sep cs
    if c = sep then [] :: r
    else (c :: r.headD []) :: r.tail

def arnParts (arn : String) : List String :=
  (splitOnChar ':' arn.data).map (fun f => String.mk f)

def getLogGroupNameFromArn (arn : String) : String :=
  (arnParts arn).getD 6 arn

/-! ## Export window (JS Date arithmetic)

  Source lines (createExportLogGroup):
    const now = new Date();
    const targetFromTime = new Date(now.getFullYear(), now.getMonth(),
      now.getDate(), 0, 0, 0, 0).getTime() - (1000 * 60 * 60 * 24);
    const targetToTime = targetFromTime + (1000 * 60 * 60 * 24) + 999;
    const targetDate = new Date(targetFromTime);
    const y = targetDate.getFullYear();
    const m = ('00' + (targetDate.getMonth() + 1)).slice(-2);
    const d = ('00' + (targetDate.getDate())).slice(-2);

  `getFullYear`/`getMonth`/`getDate` and the component `Date` constructor all
  use the host's local time zone; we model it as a fixed offset in minutes
  east of UTC (`offsetMin`), so local time = UTC + offsetMin minutes. Civil
  calendar conversions use the standard proleptic-Gregorian algorithms with
  floor division. -/

def civilFromDays (z0 : Int) : Int × Int × Int :=
  let z := z0 + 719468
  let era := Int.fdiv z 146097
  let doe := z - era * 146097
  let yoe := Int.fdiv (doe - Int.fdiv doe 1460 + Int.fdiv doe 36524 - Int.fdiv doe 146096) 365
  let y := yoe + era * 400
  let doy := doe - (365 * yoe + Int.fdiv yoe 4 - Int.fdiv yoe 100)
  let mp := Int.fdiv (5 * doy + 2) 153
  let d := doy - Int.fdiv (153 * mp + 2) 5 + 1
  let m := if mp < 10 then mp + 3 else mp - 9
  (if m ≤ 2 then y + 1 else y, m, d)

def daysFromCivil (y m d : Int) : Int :=
  let y1 := if m ≤ 2 then y - 1 else y
  let era := Int.fdiv y1 400
  let yoe := y1 - era * 400
  let mp := Int.emod (m + 9) 12
  let doy := Int.fdiv (153 * mp + 2) 5 + d - 1
  let doe := yoe * 365 + Int.fdiv yoe 4 - Int.fdiv yoe 100 + doy
  era * 146097 + doe - 719468

def localCivil (offsetMin nowMs : Int) : Int × Int × Int :=
  civilFromDays (Int.fdiv (nowMs + offsetMin * 60000) 86400000)

def localMidnightUtcMs (offsetMin y m d : Int) : Int :=
  daysFromCivil y m d * 86400000 - offsetMin * 60000

def pad2 (n : Int) : String :=
  let s := "00" ++ toString n
  s.drop (s.length - 2)

structure ExportWindow where
  fromMillis : Int
  toMillis : Int
  y : Int
  m : String
  d : String
deriving DecidableEq, Repr

def computeWindow (offsetMin nowMs : Int) : ExportWindow :=
  let c := localCivil offsetMin nowMs
  let targetFromTime := localMidnightUtcMs offsetMin c.1 c.2.1 c.2.2 - 1000 * 60 * 60 * 24
  let targetToTime := targetFromTime + 1000 * 60 * 60 * 24 + 999
  let t := localCivil offsetMin targetFromTime
  { fromMillis := targetFromTime
    toMillis := targetToTime
    y := t.1
    m := pad2 t.2.1
    d := pad2 t.2.2 }

/-! ## Export task controller

  Source: `createExportLogGroup` issues one CreateExportTask step, checks the
  returned taskId for truthiness, then loops: one DescribeExportTasks step per
  iteration, dispatching on
  `describe.exportTasks?.[0]?.status?.code ?? 'PENDING'`. External service
  responses are scripted: one Option String per create call (the optional
  taskId) and one structured response per describe call. The trace records
  every external call and every wait, in order. -/

/-- Seconds to wait between polls when export task status is RUNNING. -/
def RUNNING_WAIT_SECONDS : Nat := 10

/-- Seconds to wait when status is PENDING or before retrying. -/
def PENDING_WAIT_SECONDS : Nat := 3

structure ExportTaskStatus where
  code : Option String
deriving DecidableEq, Repr

structure ExportTask where
  status : Option ExportTaskStatus
deriving DecidableEq, Repr

structure DescribeExportTasksResponse where
  exportTasks : Option (List ExportTask)
deriving DecidableEq, Repr

/-- The optional chain with PENDING default applied to a describe response. -/
def pollStatus (r : DescribeExportTasksResponse) : String :=
  ((((r.exportTasks.getD []).head?.bind ExportTask.status).bind ExportTaskStatus.code).getD "PENDING")

inductive Action where
  | getResourcesCall
  | createCall
  | describeCall
  | wait (seconds : Nat)
deriving DecidableEq, Repr

inductive PollExit where
  | success
  | fatal
  | retryWith (rest : List DescribeExportTasksResponse)
  | exhausted
deriving DecidableEq, Repr

/-- The for-loop of createExportLogGroup, consuming one scripted describe
  response per iteration. `retryWith rest` reports that the FAILED/not-retried
  branch fired: the source then waits and re-enters createExportLogGroup with
  the remaining responses and retried = true. `exhausted` means the script ran
  out while the loop would have kept polling. -/
def pollLoop : List DescribeExportTasksResponse → Bool → List Action × PollExit
  | [], _ => ([], .exhausted)
  | r :: rest, retried =>
    let status := pollStatus r
    if status = "COMPLETED" ∨ status = "CANCELLED" ∨ status = "PENDING_CANCEL" then
      ([.describeCall], .success)
    else if status = "FAILED" then
      if !retried then
        ([.describeCall, .wait PENDING_WAIT_SECONDS], .retryWith rest)
      else
        ([.describeCall], .fatal)
    else if status = "RUNNING" then
      let p := pollLoop rest retried
      (.describeCall :: .wait RUNNING_WAIT_SECONDS :: p.1, p.2)
    else
      let p := pollLoop rest retried
      (.describeCall :: .wait PENDING_WAIT_SECONDS :: p.1, p.2)

inductive Outcome where
  | success
  | creationError
  | failureError
  | exhausted
deriving DecidableEq, Repr

/-- createExportLogGroup over scripted responses: the head of `creates` is the
  optional taskId of the CreateExportTask call; `!taskId` in JS is true for
  both an absent taskId and an empty string, hence the getD test. On
  `retryWith` the source re-runs itself once with retried = true, consuming
  the rest of the scripts. -/
def createExportLogGroup :
    List (Option String) → List DescribeExportTasksResponse → Bool → List Action × Outcome
  | [], _, _ => ([.createCall], .exhausted)
  | c :: crest, descs, retried =>
    if c.getD "" = "" then
      ([.createCall], .creationError)
    else
      match pollLoop descs retried with
      | (tr, .success) => (.createCall :: tr, .success)
      | (tr, .fatal) => (.createCall :: tr, .failureError)
      | (tr, .exhausted) => (.createCall :: tr, .exhausted)
      | (tr, .retryWith rest) =>
        let p := createExportLogGroup crest rest true
        (.createCall :: (tr ++ p.1), p.2)

/-! ## Handler

  Source: the handler checks BUCKET_NAME, dispatches on isSchedulerInput,
  validates the selected input form, resolves the worklist (paginated
  GetResources for scheduler input, the single name for legacy input), then
  maps createExportLogGroup over the worklist with maxConcurrency 1 and
  returns the success count. -/

/-- A JSON field value for tagValues: a string array or some non-array value. -/
inductive TagValuesField where
  | strArray (vs : List String)
  | nonArray
deriving DecidableEq, Repr

/-- The event payload; `none` in a field models absence of that JSON field. -/
structure EventInput where
  tagKey : Option String
  tagValues : Option TagValuesField
  TargetLogGroupName : Option String
deriving DecidableEq, Repr

/-- Source: presence of tagKey and tagValues plus Array.isArray(tagValues). -/
def isSchedulerInput (e : EventInput) : Bool :=
  e.tagKey.isSome && e.tagValues.isSome &&
    (match e.tagValues with
     | some (.strArray _) => true
     | _ => false)

/-- One GetResources response page: the optional ResourceTagMappingList, whose
  entries carry an optional ResourceARN, and the optional PaginationToken. -/
structure TaggingPage where
  resourceTagMappingList : Option (List (Option String))
  paginationToken : Option String
deriving DecidableEq, Repr

/-- The inner for-loop over one page: `if (m.ResourceARN) arns.push(...)` keeps
  an ARN only when present and non-empty (JS truthiness). -/
def collectArns : List (Option String) → List String
  | [] => []
  | some a :: rest => if a = "" then collectArns rest else a :: collectArns rest
  | none :: rest => collectArns rest

/-- The do-while continues while the token is truthy: present and non-empty. -/
def tokenTruthy (p : TaggingPage) : Bool := p.paginationToken.getD "" != ""

/-- The do-while pagination loop of the get-resources step, consuming scripted
  pages; an exhausted script is modelled as a final empty, token-less page. -/
def fetchTaggedResourceArns : List TaggingPage → List Action × List String
  | [] => ([.getResourcesCall], [])
  | p :: rest =>
    let arns := collectArns (p.resourceTagMappingList.getD [])
    if tokenTruthy p then
      let q := fetchTaggedResourceArns rest
      (.getResourcesCall :: q.1, arns ++ q.2)
    else
      ([.getResourcesCall], arns)

inductive HandlerError where
  | environmentVariableError
  | inputVariableError
deriving DecidableEq, Repr

/-- Per-log-group scripted service responses for one controller run. -/
structure GroupScript where
  creates : List (Option String)
  descs : List DescribeExportTasksResponse
deriving Repr

/-- Scripted environment of a handler run: the BUCKET_NAME variable, the
  GetResources pages, and one script per worklist position. -/
structure HandlerEnv where
  BUCKET_NAME : Option String
  pages : List TaggingPage
  scripts : List GroupScript
deriving Repr

/-- context.map with maxConcurrency 1: one sequential controller run per log
  group, counting the runs that resolve (terminal success). -/
def runMap : List GroupScript → List String → List Action × Nat
  | _, [] => ([], 0)
  | scripts, _ :: rest =>
    let s := scripts.headD ⟨[], []⟩
    let p := createExportLogGroup s.creates s.descs false
    let q := runMap scripts.tail rest
    (p.1 ++ q.1, (if p.2 = .success then 1 else 0) + q.2)

/-- The handler: BUCKET_NAME truthiness check, dispatch on isSchedulerInput,
  eager input validation, worklist resolution, then the map step. Returns the
  trace of external calls and waits together with the result. The strArray
  default [] in the scheduler branch is unreachable: isSchedulerInput = true
  forces tagValues to be a present string array. -/
def handler (env : HandlerEnv) (event : EventInput) :
    List Action × Except HandlerError Nat :=
  if env.BUCKET_NAME.getD "" = "" then
    ([], .error .environmentVariableError)
  else if isSchedulerInput event then
    let vs := match event.tagValues with
      | some (.strArray vs) => vs
      | _ => []
    if event.tagKey.getD "" = "" ∨ vs.length = 0 then
      ([], .error .inputVariableError)
    else
      let q := fetchTaggedResourceArns env.pages
      let logGroupNames := q.2.map getLogGroupNameFromArn
      let r := runMap env.scripts logGroupNames
      (q.1 ++ r.1, .ok r.2)
  else
    match event.TargetLogGroupName with
    | none => ([], .error .inputVariableError)
    | some n =>
      if n = "" then
        ([], .error .inputVariableError)
      else
        let r := runMap env.scripts [n]
        (r.1, .ok r.2)

/-! ## Theorems -/

theorem replaceSlashesList_eq_spec (cs : List Char) :
    replaceSlashesList cs = replaceSlashesSpec cs := by
  induction cs with
  | nil => rfl
  | cons c cs ih => simp [replaceSlashesList, replaceSlashesSpec] at *; exact ih

theorem stripLeadingDashList_eq_spec (cs : List Char) :
    stripLeadingDashList cs = stripLeadingDashSpec cs := by
  cases cs with
  | nil => rfl
  | cons c cs =>
    by_cases h : c = '-'
    · subst h; rfl
    · simp [stripLeadingDashList, stripLeadingDashSpec, h]

theorem replaceDotsList_eq_spec (cs : List Char) :
    replaceDotsList cs = replaceDotsSpec cs := by
  induction cs with
  | nil => rfl
  | cons c cs ih =>
    by_cases h : c = '.' <;> simp [replaceDotsList, replaceDotsSpec, h] at * <;> exact ih

/-- Claim C7: the sanitizer replaces every slash with a dash, strips one
  leading dash, then replaces every dot with two dashes (the spec-side
  staged formulation), and on the spec's concrete examples yields
  "svc-app--name", "a-b-c", and the empty string on empty input. -/
theorem C7_sanitizer_correct :
    (∀ s : String, safeLogGroupName s = sanitizeSpec s)
    ∧ safeLogGroupName "/svc/app.name" = "svc-app--name"
    ∧ safeLogGroupName "a/b/c" = "a-b-c"
    ∧ safeLogGroupName "" = "" := by
  refine ⟨fun s => ?_, by decide, by decide, rfl⟩
  simp [safeLogGroupName, sanitizeSpec, replaceSlashesList_eq_spec,
    stripLeadingDashList_eq_spec, replaceDotsList_eq_spec]

/-- Claim C2, counterexample: the spec's example identifier
  "id:svc:region:acct:log-group:my-group" has only six colon-delimited
  fields, so index 6 is absent and the code returns the identifier
  verbatim, not "my-group". -/
theorem C2_example_counterexample :
    getLogGroupNameFromArn "id:svc:region:acct:log-group:my-group"
      = "id:svc:region:acct:log-group:my-group"
    ∧ getLogGroupNameFromArn "id:svc:region:acct:log-group:my-group" ≠ "my-group" := by
  constructor <;> decide

/-- Claim C2, amended: resolution splits on ':' and takes index 6, falling
  back to the whole identifier when that field is absent; a seven-field
  identifier such as "arn:aws:logs:region:acct:log-group:my-group" resolves
  to its seventh field "my-group", while the six-field
  "id:svc:region:acct:log-group:my-group" resolves to itself unchanged. -/
theorem C2_arn_resolution (arn : String) :
    ((arnParts arn).length < 7 → getLogGroupNameFromArn arn = arn)
    ∧ (∀ s, (arnParts arn)[6]? = some s → getLogGroupNameFromArn arn = s) := by
  constructor
  · intro h
    have h6 : (arnParts arn).length ≤ 6 := by omega
    simp [getLogGroupNameFromArn, List.getD, List.getElem?_eq_none h6]
  · intro s hs
    simp [getLogGroupNameFromArn, List.getD, hs]

theorem C2_arn_resolution_witness :
    getLogGroupNameFromArn "id:svc:region:acct:log-group:my-group"
      = "id:svc:region:acct:log-group:my-group"
    ∧ getLogGroupNameFromArn "arn:aws:logs:region:acct:log-group:my-group" = "my-group" :=
  ⟨(C2_arn_resolution "id:svc:region:acct:log-group:my-group").1 (by decide),
   (C2_arn_resolution "arn:aws:logs:region:acct:log-group:my-group").2 "my-group" (by decide)⟩

/-- Claim C1: evaluation of the window computation at concrete instants.
  At now = 1000000000000 ms (2001-09-09T01:46:40Z) with the host time zone
  at UTC (offset 0), fromMillis is the previous UTC midnight
  (2001-09-08T00:00:00Z) and the month/day path components are the
  zero-padded previous day, but toMillis is fromMillis + 24h + 999 ms
  (00:00:00.999 of the next day), not fromMillis + 24h - 1 ms as the spec
  and the project README (00:00:00 to 23:59:59.999 UTC) state; moreover with
  a non-UTC host offset (UTC-10h) fromMillis is no longer the previous UTC
  midnight, because the code reads local-time date fields of now. -/
theorem C1_window_bug :
    (computeWindow 0 1000000000000).fromMillis = 999907200000
    ∧ (computeWindow 0 1000000000000).m = "09"
    ∧ (computeWindow 0 1000000000000).d = "08"
    ∧ (computeWindow 0 1000000000000).toMillis
        = (computeWindow 0 1000000000000).fromMillis + 86400999
    ∧ (computeWindow 0 1000000000000).toMillis
        ≠ (computeWindow 0 1000000000000).fromMillis + 86399999
    ∧ (computeWindow (-600) 1000000000000).fromMillis ≠ 999907200000 := by
  refine ⟨by decide, by decide, by decide, by decide, by decide, by decide⟩

/-- Claim C6: when the create response carries no taskId the controller
  fails with the creation error immediately: the trace is the single create
  call, with no describe poll, no wait, and no retry, whatever the
  remaining scripts and the retried flag. -/
theorem C6_missing_taskId_fatal
    (crest : List (Option String)) (descs : List DescribeExportTasksResponse) (retried : Bool) :
    createExportLogGroup (none :: crest) descs retried
      = ([Action.createCall], Outcome.creationError) := by
  simp [createExportLogGroup]

/-- A describe response whose first task carries the given status code. -/
def mkStatusResp (s : String) : DescribeExportTasksResponse :=
  ⟨some [⟨some ⟨some s⟩⟩]⟩

/-- Claim C4: COMPLETED, CANCELLED and PENDING_CANCEL terminate the poll
  loop with success (and the controller with the success outcome); RUNNING
  waits the longer interval (10) and polls again; PENDING or any status not
  among the five recognized codes waits the short interval (3) and polls
  again; none of these statuses produces an error exit at that step. -/
theorem C4_poll_dispositions
    (r : DescribeExportTasksResponse) (rest : List DescribeExportTasksResponse) (retried : Bool) :
    ((pollStatus r = "COMPLETED" ∨ pollStatus r = "CANCELLED" ∨ pollStatus r = "PENDING_CANCEL") →
       pollLoop (r :: rest) retried = ([Action.describeCall], PollExit.success))
    ∧ (pollStatus r = "RUNNING" →
       pollLoop (r :: rest) retried =
         (Action.describeCall :: Action.wait RUNNING_WAIT_SECONDS :: (pollLoop rest retried).1,
          (pollLoop rest retried).2))
    ∧ (pollStatus r ≠ "COMPLETED" → pollStatus r ≠ "CANCELLED" → pollStatus r ≠ "PENDING_CANCEL" →
       pollStatus r ≠ "FAILED" → pollStatus r ≠ "RUNNING" →
       pollLoop (r :: rest) retried =
         (Action.describeCall :: Action.wait PENDING_WAIT_SECONDS :: (pollLoop rest retried).1,
          (pollLoop rest retried).2))
    ∧ (∀ c : String, ∀ crest descs tr, c ≠ "" → pollLoop descs retried = (tr, PollExit.success) →
       createExportLogGroup (some c :: crest) descs retried
         = (Action.createCall :: tr, Outcome.success)) := by
  refine ⟨?_, ?_, ?_, ?_⟩
  · rintro (h | h | h) <;> simp [pollLoop, h]
  · intro h; simp [pollLoop, h]
  · intro h1 h2 h3 h4 h5; simp [pollLoop, h1, h2, h3, h4, h5]
  · intro c crest descs tr hc hp
    simp [createExportLogGroup, hc, hp]

theorem C4_poll_dispositions_witness :
    pollLoop [mkStatusResp "COMPLETED"] false = ([Action.describeCall], PollExit.success)
    ∧ pollLoop [mkStatusResp "RUNNING", mkStatusResp "CANCELLED"] false
        = ([Action.describeCall, Action.wait RUNNING_WAIT_SECONDS, Action.describeCall],
           PollExit.success)
    ∧ pollLoop [mkStatusResp "PENDING", mkStatusResp "PENDING_CANCEL"] false
        = ([Action.describeCall, Action.wait PENDING_WAIT_SECONDS, Action.describeCall],
           PollExit.success)
    ∧ createExportLogGroup [some "task-1"] [mkStatusResp "COMPLETED"] false
        = ([Action.createCall, Action.describeCall], Outcome.success) := by
  refine ⟨?_, ?_, ?_, ?_⟩
  · exact (C4_poll_dispositions (mkStatusResp "COMPLETED") [] false).1 (Or.inl (by decide))
  · rw [(C4_poll_dispositions (mkStatusResp "RUNNING") [mkStatusResp "CANCELLED"] false).2.1
      (by decide)]
    decide
  · rw [(C4_poll_dispositions (mkStatusResp "PENDING") [mkStatusResp "PENDING_CANCEL"] false).2.2.1
      (by decide) (by decide) (by decide) (by decide) (by decide)]
    decide
  · exact (C4_poll_dispositions (mkStatusResp "COMPLETED") [] false).2.2.2 "task-1" [] _ _
      (by decide) ((C4_poll_dispositions (mkStatusResp "COMPLETED") [] false).1 (Or.inl (by decide)))

/-- Claim C9: a describe response whose task list is empty (or absent) or
  whose first task carries no status code is collapsed to PENDING by the
  optional chain, so the controller waits the short interval (3) and polls
  again, exactly as for an explicit PENDING status, and never errors on
  such a response. -/
theorem C9_missing_status_is_pending
    (r : DescribeExportTasksResponse) (rest : List DescribeExportTasksResponse) (retried : Bool)
    (h : (r.exportTasks.getD []).head? = none
       ∨ ∃ t, (r.exportTasks.getD []).head? = some t
            ∧ t.status.bind ExportTaskStatus.code = none) :
    pollStatus r = "PENDING"
    ∧ pollLoop (r :: rest) retried = pollLoop (mkStatusResp "PENDING" :: rest) retried
    ∧ pollLoop (r :: rest) retried =
        (Action.describeCall :: Action.wait PENDING_WAIT_SECONDS :: (pollLoop rest retried).1,
         (pollLoop rest retried).2) := by
  have hs : pollStatus r = "PENDING" := by
    rcases h with h | ⟨t, ht, hcode⟩
    · simp [pollStatus, h]
    · simp [pollStatus, ht, hcode]
  refine ⟨hs, ?_, ?_⟩
  · have h2 : pollStatus (mkStatusResp "PENDING") = "PENDING" := by decide
    simp [pollLoop, hs, h2]
  · simp [pollLoop, hs]

theorem C9_missing_status_is_pending_witness :
    (pollStatus (⟨some []⟩ : DescribeExportTasksResponse) = "PENDING"
      ∧ pollLoop [(⟨some []⟩ : DescribeExportTasksResponse)] false
          = pollLoop [mkStatusResp "PENDING"] false
      ∧ pollLoop [(⟨some []⟩ : DescribeExportTasksResponse)] false
          = (Action.describeCall :: Action.wait PENDING_WAIT_SECONDS :: (pollLoop [] false).1,
             (pollLoop [] false).2))
    ∧ pollStatus (⟨some [⟨none⟩]⟩ : DescribeExportTasksResponse) = "PENDING" :=
  ⟨C9_missing_status_is_pending ⟨some []⟩ [] false (Or.inl (by decide)),
   (C9_missing_status_is_pending ⟨some [⟨none⟩]⟩ [] false
     (Or.inr ⟨⟨none⟩, by decide, by decide⟩)).1⟩

/-- Claim C3: a FAILED status on a not-yet-retried attempt makes the
  controller wait the short interval (3) and re-run the full create+poll
  sequence exactly once with retried = true; on the retried attempt a
  FAILED status is fatal: the poll exits fatal and the controller reports
  the export failure error, issuing no further create call. -/
theorem C3_failed_retried_once
    (r : DescribeExportTasksResponse) (rest : List DescribeExportTasksResponse) :
    (pollStatus r = "FAILED" →
       pollLoop (r :: rest) false
         = ([Action.describeCall, Action.wait PENDING_WAIT_SECONDS], PollExit.retryWith rest))
    ∧ (∀ c : String, ∀ crest descs tr rest2, c ≠ "" →
       pollLoop descs false = (tr, PollExit.retryWith rest2) →
       createExportLogGroup (some c :: crest) descs false =
         (Action.createCall :: (tr ++ (createExportLogGroup crest rest2 true).1),
          (createExportLogGroup crest rest2 true).2))
    ∧ (pollStatus r = "FAILED" →
       pollLoop (r :: rest) true = ([Action.describeCall], PollExit.fatal))
    ∧ (∀ c : String, ∀ crest descs tr, c ≠ "" →
       pollLoop descs true = (tr, PollExit.fatal) →
       createExportLogGroup (some c :: crest) descs true
         = (Action.createCall :: tr, Outcome.failureError)) := by
  refine ⟨?_, ?_, ?_, ?_⟩
  · intro h; simp [pollLoop, h]
  · intro c crest descs tr rest2 hc hp
    simp [createExportLogGroup, hc, hp]
  · intro h; simp [pollLoop, h]
  · intro c crest descs tr hc hp
    simp [createExportLogGroup, hc, hp]

theorem C3_failed_retried_once_witness :
    createExportLogGroup [some "task-1", some "task-2"]
        [mkStatusResp "FAILED", mkStatusResp "FAILED"] false
      = ([Action.createCall, Action.describeCall, Action.wait PENDING_WAIT_SECONDS,
          Action.createCall, Action.describeCall], Outcome.failureError) := by
  have hA := C3_failed_retried_once (mkStatusResp "FAILED") [mkStatusResp "FAILED"]
  have hB := C3_failed_retried_once (mkStatusResp "FAILED") []
  have e1 := hA.1 (by decide)
  have e2 := hB.2.2.1 (by decide)
  have e3 := hB.2.2.2 "task-2" [] [mkStatusResp "FAILED"] [Action.describeCall] (by decide) e2
  have e4 := hA.2.1 "task-1" [some "task-2"] [mkStatusResp "FAILED", mkStatusResp "FAILED"]
    [Action.describeCall, Action.wait PENDING_WAIT_SECONDS] [mkStatusResp "FAILED"]
    (by decide) e1
  rw [e4, e3]
  rfl

/-- Claim C5: missing or empty BUCKET_NAME fails with the environment
  variable error (the spec's ConfigurationError); scheduler input with an
  empty tag key or empty tag values, and legacy input without a target log
  group name, fail with the input variable error (the spec's InputError);
  in every case the trace is empty, so the failure precedes any discovery,
  create, or describe call. -/
theorem C5_eager_validation (env : HandlerEnv) (e : EventInput) :
    (env.BUCKET_NAME.getD "" = "" →
       handler env e = ([], Except.error HandlerError.environmentVariableError))
    ∧ (env.BUCKET_NAME.getD "" ≠ "" → ∀ vs, e.tagKey = some "" →
       e.tagValues = some (TagValuesField.strArray vs) →
       handler env e = ([], Except.error HandlerError.inputVariableError))
    ∧ (env.BUCKET_NAME.getD "" ≠ "" → ∀ k, e.tagKey = some k →
       e.tagValues = some (TagValuesField.strArray []) →
       handler env e = ([], Except.error HandlerError.inputVariableError))
    ∧ (env.BUCKET_NAME.getD "" ≠ "" → isSchedulerInput e = false →
       e.TargetLogGroupName = none →
       handler env e = ([], Except.error HandlerError.inputVariableError)) := by
  refine ⟨?_, ?_, ?_, ?_⟩
  · intro hb; simp [handler, hb]
  · intro hb vs hk hv; simp [handler, isSchedulerInput, hb, hk, hv]
  · intro hb k hk hv; simp [handler, isSchedulerInput, hb, hk, hv]
  · intro hb hs ht; simp [handler, hb, hs, ht]

theorem C5_eager_validation_witness :
    handler ⟨none, [], []⟩ ⟨some "DailyLogExport", some (TagValuesField.strArray ["Yes"]), none⟩
      = ([], Except.error HandlerError.environmentVariableError)
    ∧ handler ⟨some "bkt", [], []⟩ ⟨some "", some (TagValuesField.strArray ["Yes"]), none⟩
      = ([], Except.error HandlerError.inputVariableError)
    ∧ handler ⟨some "bkt", [], []⟩ ⟨some "DailyLogExport", some (TagValuesField.strArray []), none⟩
      = ([], Except.error HandlerError.inputVariableError)
    ∧ handler ⟨some "bkt", [], []⟩ ⟨none, none, none⟩
      = ([], Except.error HandlerError.inputVariableError) :=
  ⟨(C5_eager_validation ⟨none, [], []⟩ _).1 (by decide),
   (C5_eager_validation ⟨some "bkt", [], []⟩ _).2.1 (by decide) ["Yes"] rfl rfl,
   (C5_eager_validation ⟨some "bkt", [], []⟩ _).2.2.1 (by decide) "DailyLogExport" rfl rfl,
   (C5_eager_validation ⟨some "bkt", [], []⟩ _).2.2.2 (by decide) (by decide) rfl⟩

/-- Claim C10: an event with a tagKey field and an array-valued tagValues
  field is dispatched to tag-based discovery even when TargetLogGroupName
  is also present (the handler's result does not depend on that field
  there); an event whose tagValues is present but not an array fails the
  type guard and is processed as legacy input, erroring on the input
  variable check when TargetLogGroupName is absent and otherwise behaving
  exactly like a pure legacy event. -/
theorem C10_dispatch_precedence (env : HandlerEnv) :
    (∀ (k : String) (vs : List String) (n : String),
       isSchedulerInput ⟨some k, some (TagValuesField.strArray vs), some n⟩ = true)
    ∧ (∀ (k : String) (vs : List String) (n : String),
       handler env ⟨some k, some (TagValuesField.strArray vs), some n⟩
         = handler env ⟨some k, some (TagValuesField.strArray vs), none⟩)
    ∧ (∀ (tk : Option String) (tgn : Option String),
       isSchedulerInput ⟨tk, some TagValuesField.nonArray, tgn⟩ = false)
    ∧ (env.BUCKET_NAME.getD "" ≠ "" → ∀ (tk : Option String),
       handler env ⟨tk, some TagValuesField.nonArray, none⟩
         = ([], Except.error HandlerError.inputVariableError))
    ∧ (∀ (tk : Option String) (n : String),
       handler env ⟨tk, some TagValuesField.nonArray, some n⟩
         = handler env ⟨none, none, some n⟩) := by
  refine ⟨?_, ?_, ?_, ?_, ?_⟩
  · intro k vs n; simp [isSchedulerInput]
  · intro k vs n
    by_cases hb : env.BUCKET_NAME.getD "" = "" <;> simp [handler, isSchedulerInput, hb]
  · intro tk tgn; simp [isSchedulerInput]
  · intro hb tk; simp [handler, isSchedulerInput, hb]
  · intro tk n
    by_cases hb : env.BUCKET_NAME.getD "" = "" <;> simp [handler, isSchedulerInput, hb]

theorem C10_dispatch_precedence_witness :
    isSchedulerInput ⟨some "k", some (TagValuesField.strArray ["v"]), some "n"⟩ = true
    ∧ handler ⟨some "bkt", [], []⟩ ⟨some "k", some (TagValuesField.strArray ["v"]), some "n"⟩
        = handler ⟨some "bkt", [], []⟩ ⟨some "k", some (TagValuesField.strArray ["v"]), none⟩
    ∧ isSchedulerInput ⟨some "k", some TagValuesField.nonArray, some "n"⟩ = false
    ∧ handler ⟨some "bkt", [], []⟩ ⟨some "k", some TagValuesField.nonArray, none⟩
        = ([], Except.error HandlerError.inputVariableError)
    ∧ handler ⟨some "bkt", [], []⟩ ⟨some "k", some TagValuesField.nonArray, some "n"⟩
        = handler ⟨some "bkt", [], []⟩ ⟨none, none, some "n"⟩ :=
  let h := C10_dispatch_precedence ⟨some "bkt", [], []⟩
  ⟨h.1 "k" ["v"] "n", h.2.1 "k" ["v"] "n", h.2.2.1 (some "k") (some "n"),
   h.2.2.2.1 (by decide) (some "k"), h.2.2.2.2 (some "k") "n"⟩

theorem fetchTaggedResourceArns_pages :
    ∀ (ps : List TaggingPage) (plast : TaggingPage),
      (∀ p ∈ ps, tokenTruthy p = true) → tokenTruthy plast = false →
      (fetchTaggedResourceArns (ps ++ [plast])).2
          = ((ps ++ [plast]).map
              (fun p => collectArns (p.resourceTagMappingList.getD []))).flatten
        ∧ (fetchTaggedResourceArns (ps ++ [plast])).1
          = List.replicate (ps.length + 1) Action.getResourcesCall
  | [], plast, _, hlast => by
    simp [fetchTaggedResourceArns, hlast]
  | p :: ps, plast, hps, hlast => by
    have ih := fetchTaggedResourceArns_pages ps plast
      (fun q hq => hps q (List.mem_cons_of_mem _ hq)) hlast
    have hp : tokenTruthy p = true := hps p (List.mem_cons_self _ _)
    simp [fetchTaggedResourceArns, hp, ih.1, ih.2, List.replicate_succ]

/-- Claim C8: when every page before the last carries a truthy pagination
  token and the last does not, the pagination loop issues exactly one
  discovery call per page and collects every kept resource identifier of
  every page, in page order and entry order, with no deduplication and no
  re-sorting; mapping the identifiers to source names preserves that order
  and multiplicity, so an identifier returned on two pages appears twice
  in the worklist (concrete final conjunct). -/
theorem C8_pagination_no_dedup
    (ps : List TaggingPage) (plast : TaggingPage)
    (hps : ∀ p ∈ ps, tokenTruthy p = true) (hlast : tokenTruthy plast = false) :
    ((fetchTaggedResourceArns (ps ++ [plast])).2
        = ((ps ++ [plast]).map
            (fun p => collectArns (p.resourceTagMappingList.getD []))).flatten)
    ∧ ((fetchTaggedResourceArns (ps ++ [plast])).2.map getLogGroupNameFromArn
        = (((ps ++ [plast]).map
            (fun p => collectArns (p.resourceTagMappingList.getD []))).flatten).map
              getLogGroupNameFromArn)
    ∧ ((fetchTaggedResourceArns (ps ++ [plast])).1
        = List.replicate (ps.length + 1) Action.getResourcesCall)
    ∧ ((fetchTaggedResourceArns
          [⟨some [some "arn:aws:logs:r:a:log-group:g"], some "tok"⟩,
           ⟨some [some "arn:aws:logs:r:a:log-group:g"], none⟩]).2.map getLogGroupNameFromArn
        = ["g", "g"]) := by
  have h := fetchTaggedResourceArns_pages ps plast hps hlast
  exact ⟨h.1, by rw [h.1], h.2, by decide⟩

theorem C8_pagination_no_dedup_witness :
    (fetchTaggedResourceArns
        [⟨some [some "arnA", none, some ""], some "tok"⟩, ⟨some [some "arnB"], none⟩]).2
      = (([(⟨some [some "arnA", none, some ""], some "tok"⟩ : TaggingPage),
           ⟨some [some "arnB"], none⟩].map
          (fun p => collectArns (p.resourceTagMappingList.getD []))).flatten)
    ∧ (fetchTaggedResourceArns
        [⟨some [some "arnA", none, some ""], some "tok"⟩, ⟨some [some "arnB"], none⟩]).1
      = List.replicate 2 Action.getResourcesCall := by
  have h := C8_pagination_no_dedup
    [⟨some [some "arnA", none, some ""], some "tok"⟩] ⟨some [some "arnB"], none⟩
    (by decide) (by decide)
  exact ⟨h.1, h.2.2.1⟩

end LogArchiver
